import Mathlib

/-!
Verification development for the DOC GRN scheduler (src/app.py).

The development shallowly embeds the document-record normalization and
idempotent-ingestion subsystem of the repository:

* a JSON-like `Value` type stands for the dynamic payloads produced by the
  external extraction service; Python dictionaries are embedded as
  association lists with first-occurrence lookup (keys are unique in every
  dictionary the program builds, so this coincides with Python semantics);
* `process_extracted_data` / `create_base_row` embed the row normalizer
  (`app.py` lines 793-974); the wall clock read by `time.strftime` is
  modelled as an explicit `now : String` parameter, held constant over one
  normalization call;
* `sanitize_filename` embeds the filename cleaner (lines 316-327);
* `get_existing_source_files`, `safe_extract`, header reconciliation and
  `process_drive_to_sheet_workflow` (lines 651-1150) are embedded as pure
  state-passing functions over a spreadsheet modelled as a list of rows,
  with the external services (download, extraction attempts, append) given
  by a `World` of deterministic oracles.

Numeric payload values are modelled as integers (`Value.vint`); floating
point payloads are outside the model.  Python `str.strip` is modelled by
`pyStrip`, which removes the ASCII whitespace characters from both ends.
-/

/-- Dynamic JSON-like value, the shape of extraction payloads. -/
inductive Value where
  | vnull : Value
  | vbool : Bool → Value
  | vint : Int → Value
  | vstr : String → Value
  | vlist : List Value → Value
  | vobj : List (String × Value) → Value
deriving Repr

mutual

/-- Python repr of a value, used by str() on lists and dictionaries.
Quote escaping inside string payloads is not modelled (no claim depends
on it); strings are shown between single quote characters as Python does. -/
def pyRepr : Value → String
  | .vnull => "None"
  | .vbool true => "True"
  | .vbool false => "False"
  | .vint n => toString n
  | .vstr s => "\x27" ++ s ++ "\x27"
  | .vlist l => "[" ++ pyReprList l ++ "]"
  | .vobj o => "\x7b" ++ pyReprObj o ++ "\x7d"

/-- Comma-separated repr of list elements. -/
def pyReprList : List Value → String
  | [] => ""
  | [v] => pyRepr v
  | v :: vs => pyRepr v ++ ", " ++ pyReprList vs

/-- Comma-separated repr of dictionary entries. -/
def pyReprObj : List (String × Value) → String
  | [] => ""
  | [(k, v)] => "\x27" ++ k ++ "\x27: " ++ pyRepr v
  | (k, v) :: kvs => "\x27" ++ k ++ "\x27: " ++ pyRepr v ++ ", " ++ pyReprObj kvs
end

/-- Python str() of a value: strings print bare, containers print as repr. -/
def pyStr : Value → String
  | .vstr s => s
  | v => pyRepr v

/-- The whitespace characters removed by Python str.strip (the ASCII
ones; stripping of rare non-ASCII unicode spaces is not modelled). -/
def is_space (c : Char) : Bool :=
  c = ' ' || c = '\t' || c = '\n' || c = '\r' || c = '\x0b' || c = '\x0c'

/-- Embedding of Python str.strip: drop whitespace from both ends. -/
def pyStrip (s : String) : String :=
  String.mk (((s.data.dropWhile is_space).reverse.dropWhile is_space).reverse)

/-- The value cleanup applied to every row field (app.py lines 914-923 and
964-972): None becomes the empty string, int values become their decimal
string (Python bool is an int subclass and prints True/False), any other
value is stringified and stripped unless it is the empty string. -/
def cleanV : Value → String
  | .vnull => ""
  | .vint n => toString n
  | .vbool true => "True"
  | .vbool false => "False"
  | .vstr s => if s = "" then "" else pyStrip s
  | v => pyStrip (pyStr v)

/-- Embedding of Python `d[k]` presence: first entry with the given key. -/
def dict_get (o : List (String × Value)) (k : String) : Option Value :=
  (o.find? (fun kv => kv.1 == k)).map (fun kv => kv.2)

/-- Embedding of the nested `item.get(k1, item.get(k2, ... ""))` chains of
app.py: the value of the first present key wins (even when that value is
None), and the final default is the Python string "". -/
def resolveRaw (o : List (String × Value)) : List String → Value
  | [] => .vstr ""
  | k :: rest =>
    match dict_get o k with
    | some v => v
    | none => resolveRaw o rest

/-- A file listed from Drive: id and name (app.py list_drive_files fields). -/
structure FileInfo where
  id : String
  name : String
deriving DecidableEq, Repr

/-- Alias chain for grn_date (section 6 of the spec; app.py line 825). -/
def chain_grn_date : List String := ["grn_date", "date", "document_date"]

/-- Alias chain for supplier (app.py line 826). -/
def chain_supplier : List String := ["supplier", "vendor_name", "vendor"]

/-- Alias chain for po_number (app.py line 827). -/
def chain_po_number : List String := ["po_number", "purchase_order_number", "po_no"]

/-- Alias chain for shipping_address (app.py line 828). -/
def chain_shipping_address : List String := ["shipping_address", "delivery_address", "address"]

/-- Alias chain for vendor_invoice_number (app.py line 829). -/
def chain_vendor_invoice_number : List String :=
  ["vendor_invoice_number", "invoice_number", "invoice_no"]

/-- Alias chain for item_description (app.py lines 852-855). -/
def chain_item_description : List String :=
  ["item_description", "description", "product_description", "product_name"]

/-- Alias chain for rcv_qty (app.py lines 857-859). -/
def chain_rcv_qty : List String := ["rcv_qty", "received_quantity", "received_qty"]

/-- Alias chain for ord_qty (app.py lines 861-865). -/
def chain_ord_qty : List String :=
  ["ord_qty", "ordered_quantity", "ordered_qty", "quantity", "qty"]

/-- Alias chain for uom (app.py lines 870-872). -/
def chain_uom : List String := ["uom", "unit_of_measure", "unit"]

/-- Alias chain for sku (app.py lines 874-876). -/
def chain_sku : List String := ["sku", "sku_code", "item_code"]

/-- Alias chain for variant_ean (app.py lines 878-880). -/
def chain_variant_ean : List String := ["variant_ean", "ean", "barcode"]

/-- Alias chain for hsn_code (app.py lines 885-887). -/
def chain_hsn_code : List String := ["hsn_code", "hsn", "tax_code"]

/-- Alias chain for unit_cost (app.py lines 889-892). -/
def chain_unit_cost : List String := ["unit_cost", "unit_price", "price_per_unit", "rate"]

/-- Alias chain for tax_amount (app.py lines 894-895). -/
def chain_tax_amount : List String := ["tax_amount", "tax"]

/-- Alias chain for tax_percentage (app.py lines 900-902). -/
def chain_tax_percentage : List String := ["tax_percentage", "tax_percent", "tax_rate"]

/-- Alias chain for mrp (app.py lines 904-906). -/
def chain_mrp : List String := ["mrp", "maximum_retail_price", "retail_price"]

/-- Alias chain for net_value (app.py lines 908-911). -/
def chain_net_value : List String := ["net_value", "net_amount", "total_amount", "amount"]

/-- The raw (pre-cleanup) row dictionary built for one item, in the literal
order of the dict at app.py lines 839-912.  The document-level fields are
resolved from the whole record `o` (doc_data, lines 824-830, computed once
per document and reused; re-deriving per item gives the same pure value),
item-level fields from the item dictionary. -/
def make_item_row (o item : List (String × Value)) (f : FileInfo) (now : String) :
    List (String × Value) :=
  [("grn_date", resolveRaw o chain_grn_date),
   ("grndate", resolveRaw o chain_grn_date),
   ("source_file", .vstr f.name),
   ("processed_date", .vstr now),
   ("supplier", resolveRaw o chain_supplier),
   ("po_number", resolveRaw o chain_po_number),
   ("shipping_address", resolveRaw o chain_shipping_address),
   ("vendor_invoice_number", resolveRaw o chain_vendor_invoice_number),
   ("drive_file_id", .vstr f.id),
   ("item_description", resolveRaw item chain_item_description),
   ("rcv_qty", resolveRaw item chain_rcv_qty),
   ("ord_qty", resolveRaw item chain_ord_qty),
   ("ord.qty", resolveRaw item ["ord.qty", "ord_qty", "ordered_quantity"]),
   ("uom", resolveRaw item chain_uom),
   ("sku", resolveRaw item chain_sku),
   ("variant_ean", resolveRaw item chain_variant_ean),
   ("variant.ean", resolveRaw item ["variant.ean", "ean", "barcode"]),
   ("hsn_code", resolveRaw item chain_hsn_code),
   ("unit_cost", resolveRaw item chain_unit_cost),
   ("tax_amount", resolveRaw item chain_tax_amount),
   ("tax amount", resolveRaw item ["tax amount", "tax_amount", "tax"]),
   ("tax_percentage", resolveRaw item chain_tax_percentage),
   ("mrp", resolveRaw item chain_mrp),
   ("net_value", resolveRaw item chain_net_value)]

/-- Cleanup pass over a raw row (app.py lines 915-923 / 965-972). -/
def clean_row (r : List (String × Value)) : List (String × String) :=
  r.map (fun kv => (kv.1, cleanV kv.2))

/-- Embedding of create_base_row (app.py lines 935-974): the single-row
fallback used when no item list is found.  Note the truncated alias chains
of the source (for example supplier only tries supplier and vendor_name,
and variant_ean only reads the key ean). -/
def create_base_row (o : List (String × Value)) (f : FileInfo) (now : String) :
    List (String × String) :=
  clean_row
  [("grn_date", resolveRaw o ["grn_date", "date"]),
   ("grndate", resolveRaw o ["grn_date", "date"]),
   ("source_file", .vstr f.name),
   ("processed_date", .vstr now),
   ("supplier", resolveRaw o ["supplier", "vendor_name"]),
   ("po_number", resolveRaw o ["po_number", "purchase_order_number"]),
   ("shipping_address", resolveRaw o ["shipping_address", "delivery_address"]),
   ("vendor_invoice_number", resolveRaw o ["vendor_invoice_number", "invoice_number"]),
   ("drive_file_id", .vstr f.id),
   ("item_description", resolveRaw o ["item_description"]),
   ("rcv_qty", resolveRaw o ["rcv_qty"]),
   ("ord_qty", resolveRaw o ["ord_qty", "quantity"]),
   ("ord.qty", resolveRaw o ["ord_qty"]),
   ("uom", resolveRaw o ["uom"]),
   ("sku", resolveRaw o ["sku"]),
   ("variant_ean", resolveRaw o ["ean"]),
   ("variant.ean", resolveRaw o ["ean"]),
   ("hsn_code", resolveRaw o ["hsn_code"]),
   ("unit_cost", resolveRaw o ["unit_cost"]),
   ("tax_amount", resolveRaw o ["tax_amount"]),
   ("tax amount", resolveRaw o ["tax_amount"]),
   ("tax_percentage", resolveRaw o ["tax_percentage"]),
   ("mrp", resolveRaw o ["mrp"]),
   ("net_value", resolveRaw o ["net_value"])]

/-- The ordered item-container key candidates of app.py line 803 (the
source lists line_items twice; the duplicate is kept for fidelity). -/
def item_keys : List String :=
  ["items", "product_items", "line_items", "products", "grn_items", "line_items"]

/-- The item-container scan of app.py lines 802-809: the first key that is
present and whose value is a list wins; a present key with a non-list value
does not stop the scan. -/
def findItems (ks : List String) (o : List (String × Value)) : Option (List Value) :=
  match ks with
  | [] => none
  | k :: rest =>
    match dict_get o k with
    | some (.vlist l) => some l
    | _ => findItems rest o

/-- Bool test for dictionary-shaped values (isinstance(item, dict)). -/
def isObjB : Value → Bool
  | .vobj _ => true
  | _ => false

/-- Embedding of process_extracted_data (app.py lines 793-933) on a
dictionary payload.  When the resolved item list is empty or absent the
single fallback row is produced (create_base_row always returns a nonempty
dictionary, so the `if row:` guard at line 819 always passes); otherwise one
cleaned row per dictionary-shaped item is produced and non-dictionary items
are silently dropped (lines 833-835). -/
def process_extracted_data (o : List (String × Value)) (f : FileInfo) (now : String) :
    List (List (String × String)) :=
  let items := (findItems item_keys o).getD []
  if items.isEmpty then [create_base_row o f now]
  else
    items.flatMap (fun it =>
      match it with
      | .vobj io => [clean_row (make_item_row o io f now)]
      | _ => [])

/-- Modelled from the spec (section 4.1): the first present key of the
chain, scanned left to right; `none` when every key is absent.  This is
the spec-side resolver used to compare the code rows against the section-6
alias table. -/
def spec_first_present (o : List (String × Value)) : List String → Option Value
  | [] => none
  | k :: rest =>
    match dict_get o k with
    | some v => some v
    | none => spec_first_present o rest

/-- Modelled from the spec (sections 4.1 and 4.3): resolve a chain to the
cleaned string value of its first present key, the empty string when every
key is absent, and the empty string when the present value is None. -/
def spec_resolve (o : List (String × Value)) (chain : List String) : String :=
  match spec_first_present o chain with
  | none => ""
  | some v => cleanV v

/-- The characters replaced by sanitize_filename (app.py line 318). -/
def bad_chars : List Char := ['<', '>', ':', '\x22', '/', '\\', '|', '?', '*']

/-- Replace one filename character as re.sub of app.py line 318 does. -/
def replace_bad (c : Char) : Char := if c ∈ bad_chars then '_' else c

/-- Python str.split on a dot, on character lists ("a.b".split gives two
parts, "".split gives one empty part, a trailing dot gives an empty last
part). -/
def splitDot : List Char → List (List Char)
  | [] => [[]]
  | c :: rest =>
    let r := splitDot rest
    if c = '.' then [] :: r
    else
      match r with
      | [] => [[c]]
      | h :: t => (c :: h) :: t

/-- Embedding of sanitize_filename (app.py lines 316-327): replace the
characters of bad_chars with an underscore; if the result is longer than
100 characters, keep the extension (text after the last dot) and cut the
base name to 95 characters, or cut to 100 characters when there is no
dot. -/
def sanitize_filename (fn : String) : String :=
  let cleaned := fn.data.map replace_bad
  let final :=
    if 100 < cleaned.length then
      let parts := splitDot cleaned
      if 1 < parts.length then
        let ext := parts.getLastD []
        let base := List.intercalate ['.'] parts.dropLast
        base.take 95 ++ '.' :: ext
      else cleaned.take 100
    else cleaned
  String.mk final

/-- Position of the first occurrence of a column name (Python list.index;
the source only calls it after a membership check). -/
def idx_of (c : String) : List String → Nat
  | [] => 0
  | h :: t => if h = c then 0 else idx_of c t + 1

/-- Embedding of get_existing_source_files (app.py lines 651-676): the
dedup index.  The sheet is a list of rows; the first row is the header.
An empty sheet or a missing source_file column gives the empty index; the
collected identities are the nonempty values in the source_file column of
the data rows. -/
def get_existing_source_files (values : List (List String)) : List String :=
  match values with
  | [] => []
  | headers :: dataRows =>
    if "source_file" ∈ headers then
      let idx := idx_of "source_file" headers
      (dataRows.filter (fun r => decide (idx < r.length ∧ r.getD idx "" ≠ ""))).map
        (fun r => r.getD idx "")
    else []

/-- Attempt loop of safe_extract: `attempt` is the 1-based index passed to
the extraction stub, the second argument the remaining attempts.  Returns
the first successful result (or none) together with the number of calls
made to the stub. -/
def safe_extract_aux (stub : Nat → Option Value) : Nat → Nat → Option Value × Nat
  | _, 0 => (none, 0)
  | attempt, Nat.succ n =>
    match stub attempt with
    | some v => (some v, 1)
    | none =>
      let r := safe_extract_aux stub (attempt + 1) n
      (r.1, r.2 + 1)

/-- Embedding of safe_extract (app.py lines 735-744): up to `retries`
sequential calls to the extraction stub; the first success returns, and
exhausting every attempt raises (modelled as `none`).  The fixed
2-second sleep between attempts is real time and is not modelled. -/
def safe_extract (stub : Nat → Option Value) (retries : Nat) : Option Value × Nat :=
  safe_extract_aux stub 1 retries

/-- The expected column list of app.py lines 1032-1038, in source order. -/
def expected_columns : List String :=
  ["item_description", "vendor_invoice_number", "rcv_qty", "grn_date",
   "source_file", "processed_date", "supplier", "uom", "variant_ean",
   "hsn_code", "ord_qty", "po_number", "tax_amount", "shipping_address",
   "sku", "unit_cost", "tax_percentage", "drive_file_id", "mrp",
   "net_value", "grndate", "variant.ean", "ord.qty", "tax amount"]

/-- Header reconciliation decision (app.py lines 1041-1052) on the header
list read from the sheet: an empty header row is replaced by the expected
columns; otherwise the expected columns not yet present are appended at
the end.  The Bool records whether a header write is performed. -/
def reconcile_headers (headers : List String) : List String × Bool :=
  if headers = [] then (expected_columns, true)
  else
    let missing := expected_columns.filter (fun c => decide (c ∉ headers))
    if missing = [] then (headers, false)
    else (headers ++ missing, true)

/-- Embedding of get_sheet_headers (app.py lines 705-717): the header row
read through the range A1:Z1, hence at most 26 cells. -/
def get_sheet_headers (values : List (List String)) : List String :=
  (values.headD []).take 26

/-- Effect of a successful header write on the sheet: overwrite the first
`new.length` cells of the header row (cells beyond the written range keep
their old values); on an empty sheet the header row is created. -/
def set_header_row (values : List (List String)) (new : List String) : List (List String) :=
  match values with
  | [] => [new]
  | r0 :: rest => (new ++ r0.drop new.length) :: rest

/-- Embedding of update_headers (app.py lines 719-733): the write targets
the range A1:chr(64+n)1 where n is the header length, so it
deterministically fails (returns False, sheet unchanged) whenever
chr(64+n) is not a column letter, that is unless 1 <= n <= 26; a write
with a valid range lands in the sheet and returns True.  Transient
service failures of a valid write are not modelled, matching the
deterministic oracles used for the other collaborators. -/
def update_headers (values : List (List String)) (new : List String) :
    List (List String) × Bool :=
  if 1 ≤ new.length ∧ new.length ≤ 26 then (set_header_row values new, true)
  else (values, false)

/-- Header reconciliation step of the workflow (app.py lines 1041-1052):
read, widen if needed, write back when a write is due.  The caller
ignores the Bool returned by update_headers (line 1051), so the run
keeps using the widened header list for row building even when the write
failed and the stored header row stayed unwidened; the returned pair is
(sheet after the attempted write, header list used by the run). -/
def reconcile_store (values : List (List String)) : List (List String) × List String :=
  let hdrs := get_sheet_headers values
  let p := reconcile_headers hdrs
  (if p.2 then (update_headers values p.1).1 else values, p.1)

/-- Embedding of the sheet-row construction (app.py lines 1099-1109): one
cell per header, in header order; a column the row does not resolve gets
the empty string; every cell is stringified and stripped. -/
def sheet_row_of (headers : List String) (row : List (String × String)) : List String :=
  headers.map (fun h => pyStrip ((row.lookup h).getD ""))

/-- Rows obtained from one extraction payload (app.py lines 1077-1089): a
list payload is processed chunk by chunk, skipping non-dictionary chunks; a
dictionary payload is processed directly.  A payload that is neither raises
inside process_extracted_data in the source and is caught by the per-file
handler; that path is modelled as zero rows, which the caller counts as a
failed file exactly as the source does. -/
def payload_rows (p : Value) (f : FileInfo) (now : String) :
    List (List (String × String)) :=
  match p with
  | .vlist chunks =>
    chunks.flatMap (fun c =>
      match c with
      | .vobj o => process_extracted_data o f now
      | _ => [])
  | .vobj o => process_extracted_data o f now
  | _ => []

/-- Per-run statistics of the Drive-to-Sheet workflow (app.py lines
978-984). -/
structure RunStats where
  files_found : Nat
  files_processed : Nat
  files_failed : Nat
  files_skipped : Nat
  rows_added : Nat
deriving Repr, DecidableEq

/-- The external collaborators of one run, as deterministic oracles:
whether the Drive download of a file yields bytes, the result of the n-th
extraction attempt on a file (n is the 1-based attempt index inside one
safe_extract call), and whether the sheet append for a file succeeds
within its own retry budget. -/
structure World where
  downloadOk : FileInfo → Bool
  extractAttempt : FileInfo → Nat → Option Value
  appendOk : FileInfo → Bool

/-- State threaded through the per-file loop: the sheet contents, the run
statistics, and a log of safe_extract invocations with their call
counts. -/
structure PipeState where
  values : List (List String)
  stats : RunStats
  log : List (FileInfo × Nat)
deriving Repr

/-- One iteration of the per-file loop of process_drive_to_sheet_workflow
(app.py lines 1056-1130): download, retry-wrapped extraction, row
normalization, append; every failure increments files_failed and the loop
moves on. -/
def processFile (w : World) (headers : List String) (now : String)
    (s : PipeState) (f : FileInfo) : PipeState :=
  if w.downloadOk f = false then
    { s with stats := { s.stats with files_failed := s.stats.files_failed + 1 } }
  else
    let er := safe_extract (w.extractAttempt f) 3
    let log := s.log ++ [(f, er.2)]
    match er.1 with
    | none =>
      { s with stats := { s.stats with files_failed := s.stats.files_failed + 1 },
               log := log }
    | some p =>
      let allRows := payload_rows p f now
      if allRows.isEmpty then
        { s with stats := { s.stats with files_failed := s.stats.files_failed + 1 },
                 log := log }
      else
        let sheetRows := allRows.map (sheet_row_of headers)
        if w.appendOk f then
          { values := s.values ++ sheetRows,
            stats := { s.stats with
                         files_processed := s.stats.files_processed + 1,
                         rows_added := s.stats.rows_added + sheetRows.length },
            log := log }
        else
          { s with stats := { s.stats with files_failed := s.stats.files_failed + 1 },
                   log := log }

/-- The dedup filter of app.py line 1016: keep the candidates whose name
is not in the existing index, preserving order. -/
def dedup_filter (candidates : List FileInfo) (existing : List String) : List FileInfo :=
  candidates.filter (fun f => decide (f.name ∉ existing))

/-- The max_files cap of app.py lines 1020-1022. -/
def capped (files : List FileInfo) (maxFiles : Option Nat) : List FileInfo :=
  match maxFiles with
  | some m => files.take m
  | none => files

/-- Embedding of process_drive_to_sheet_workflow (app.py lines 976-1150):
build the dedup index, filter the listed candidates by it, cap by
max_files, return early when nothing is left (before any header write),
otherwise reconcile headers once and run the per-file loop. -/
def runWorkflow (w : World) (values0 : List (List String)) (candidates : List FileInfo)
    (maxFiles : Option Nat) (skipExisting : Bool) (now : String) : PipeState :=
  let existing := if skipExisting then get_existing_source_files values0 else []
  let files1 := if skipExisting then dedup_filter candidates existing else candidates
  let files2 := capped files1 maxFiles
  let stats0 : RunStats :=
    ⟨candidates.length, 0, 0, candidates.length - files1.length, 0⟩
  if files2.isEmpty then ⟨values0, stats0, []⟩
  else
    let rs := reconcile_store values0
    files2.foldl (processFile w rs.2 now) ⟨rs.1, stats0, []⟩

/-- A document fails the per-file loop for a deterministic reason: its
download yields no bytes, its extraction budget is exhausted, its payload
normalizes to zero rows, or its append fails.  Each case increments
files_failed and leaves the sheet unchanged. -/
def FileFails (w : World) (f : FileInfo) : Prop :=
  w.downloadOk f = false ∨
  (safe_extract (w.extractAttempt f) 3).1 = none ∨
  (∀ p, (safe_extract (w.extractAttempt f) 3).1 = some p → payload_rows p f "" = []) ∨
  w.appendOk f = false

/-- Fixed concrete file used by scenario theorems. -/
def file0 : FileInfo := ⟨"fid0", "doc.pdf"⟩

/-- Fixed concrete normalization time used by scenario theorems. -/
def now0 : String := "2024-01-01 00:00:00"

/-- The payload of the document B scenario (spec section 8). -/
def c3_payload : List (String × Value) :=
  [("line_items", .vlist [.vobj [("qty", .vint 5)], .vobj [("sku", .vstr "X1")]])]

/-- A payload whose item container is nonempty but holds no dictionary. -/
def c2_payload : List (String × Value) := [("items", .vlist [.vint 5])]

/-- A payload with no item container and only the alias key vendor. -/
def c4_payload : List (String × Value) := [("vendor", .vstr "Acme")]

/-- A payload with one item that only sets the alias key qty. -/
def c5_payload : List (String × Value) := [("line_items", .vlist [.vobj [("qty", .vint 5)]])]

/-- A world where every external call succeeds and every extraction
returns a plain document on the first attempt. -/
def world1 : World :=
  ⟨fun _ => true, fun _ _ => some (.vobj [("supplier", .vstr "S")]), fun _ => true⟩

/-- A world whose extraction service always fails. -/
def world_allfail : World := ⟨fun _ => true, fun _ _ => none, fun _ => true⟩

/-- An extraction stub that fails the first two attempts and succeeds on
the third. -/
def stub3 : Nat → Option Value := fun i => if i = 3 then some (.vstr "ok") else none

/-- Concrete candidate files for the ingestion scenarios. -/
def fileA : FileInfo := ⟨"1", "a.pdf"⟩

/-- Second concrete candidate file. -/
def fileB : FileInfo := ⟨"2", "b.pdf"⟩

/-- A candidate file whose name carries leading whitespace. -/
def fileC : FileInfo := ⟨"3", " c.pdf"⟩

/-! ## Helper lemmas -/

/-- The nested-get resolution of the code followed by the value cleanup
agrees with the spec-side first-present-key resolver. -/
theorem clean_resolveRaw (o : List (String × Value)) :
    ∀ chain, cleanV (resolveRaw o chain) = spec_resolve o chain := by
  intro chain
  induction chain with
  | nil => rfl
  | cons k rest ih =>
    cases h : dict_get o k with
    | none =>
      have h2 : spec_resolve o (k :: rest) = spec_resolve o rest := by
        simp [spec_resolve, spec_first_present, h]
      rw [h2, ← ih]
      simp [resolveRaw, h]
    | some v =>
      simp [resolveRaw, spec_resolve, spec_first_present, h]

/-- A list of non-dictionary items contributes no rows. -/
theorem flatMap_no_obj (o : List (String × Value)) (f : FileInfo) (now : String) :
    ∀ l : List Value, (∀ v ∈ l, isObjB v = false) →
      l.flatMap (fun it =>
        match it with
        | .vobj io => [clean_row (make_item_row o io f now)]
        | _ => []) = [] := by
  intro l h
  induction l with
  | nil => rfl
  | cons v t ih =>
    have hv := h v (by simp)
    have ht : ∀ u ∈ t, isObjB u = false := fun u hu => h u (by simp [hu])
    cases v <;> simp_all [isObjB]

/-- Every emitted row is either the fallback row or the cleaned row of one
dictionary-shaped item. -/
theorem process_rows_cases (o : List (String × Value)) (f : FileInfo) (now : String)
    (row : List (String × String)) (hrow : row ∈ process_extracted_data o f now) :
    row = create_base_row o f now ∨
    ∃ io, row = clean_row (make_item_row o io f now) := by
  unfold process_extracted_data at hrow
  by_cases hi : ((findItems item_keys o).getD []).isEmpty = true
  · left
    rw [if_pos hi] at hrow
    simpa using hrow
  · right
    rw [if_neg hi] at hrow
    rw [List.mem_flatMap] at hrow
    obtain ⟨it, _, hr⟩ := hrow
    cases it with
    | vobj io => exact ⟨io, by simpa using hr⟩
    | vnull => simp at hr
    | vbool b => simp at hr
    | vint n => simp at hr
    | vstr s => simp at hr
    | vlist l => simp at hr

/-! ## Claim theorems -/

/-- Claim C3: for the payload with line_items [qty 5, sku X1], normalization
emits exactly two rows; the first row has ord_qty 5 as a string, the second
the empty string, and the two rows agree on every document-level column
(the wall clock is modelled as one fixed parameter per normalization
call). -/
theorem claim_C3 (f : FileInfo) (now : String) :
    (process_extracted_data c3_payload f now).length = 2 ∧
    ((process_extracted_data c3_payload f now).getD 0 []).lookup "ord_qty" = some "5" ∧
    ((process_extracted_data c3_payload f now).getD 1 []).lookup "ord_qty" = some "" ∧
    ∀ k ∈ ["grn_date", "grndate", "source_file", "processed_date", "supplier",
           "po_number", "shipping_address", "vendor_invoice_number", "drive_file_id"],
      ((process_extracted_data c3_payload f now).getD 0 []).lookup k =
        ((process_extracted_data c3_payload f now).getD 1 []).lookup k := by
  refine ⟨rfl, rfl, rfl, ?_⟩
  intro k hk
  fin_cases hk <;> rfl

/-- Claim C3 witness: the two rows share the supplier column at a concrete
file and time. -/
theorem claim_C3_witness :
    ((process_extracted_data c3_payload file0 now0).getD 0 []).lookup "supplier" =
      ((process_extracted_data c3_payload file0 now0).getD 1 []).lookup "supplier" :=
  (claim_C3 file0 now0).2.2.2 "supplier" (by decide)

/-- Claim C2 counterexample: the payload with items = [5] resolves a
nonempty item container with zero usable (dictionary) entries, yet the
normalizer emits zero rows and takes no fallback, refuting the claim that
zero usable rows always produce one document-level row. -/
theorem claim_C2_counterexample :
    findItems item_keys c2_payload = some [.vint 5] ∧
    process_extracted_data c2_payload file0 now0 = [] :=
  ⟨rfl, rfl⟩

/-- Claim C2 as amended: the single-row fallback fires exactly when the
resolved item container is empty or absent; a nonempty container whose
entries are all non-dictionaries yields zero rows (and the caller counts
the document as failed). -/
theorem claim_C2_amended (o : List (String × Value)) (f : FileInfo) (now : String) :
    ((findItems item_keys o).getD [] = [] →
      process_extracted_data o f now = [create_base_row o f now]) ∧
    (∀ l, findItems item_keys o = some l → l ≠ [] → (∀ v ∈ l, isObjB v = false) →
      process_extracted_data o f now = []) := by
  constructor
  · intro h
    simp [process_extracted_data, h]
  · intro l hl hne hall
    cases l with
    | nil => exact absurd rfl hne
    | cons v t =>
      unfold process_extracted_data
      rw [hl]
      simpa using flatMap_no_obj o f now (v :: t) hall

/-- Claim C2 witness: a container holding one string item gives zero
rows. -/
theorem claim_C2_witness :
    process_extracted_data [("product_items", .vlist [.vstr "x"])] file0 now0 = [] :=
  (claim_C2_amended [("product_items", .vlist [.vstr "x"])] file0 now0).2
    [.vstr "x"] rfl (by simp)
    (by intro v hv; simp at hv; subst hv; rfl)

/-- Claim C10: a recognized item-container key holding an empty list takes
the single-row fallback, exactly like an absent container: one row built by
create_base_row, never zero rows. -/
theorem claim_C10 (o : List (String × Value)) (f : FileInfo) (now : String) :
    (findItems item_keys o = some [] →
      process_extracted_data o f now = [create_base_row o f now]) ∧
    (findItems item_keys o = none →
      process_extracted_data o f now = [create_base_row o f now]) := by
  constructor <;> intro h <;> simp [process_extracted_data, h]

/-- Claim C10 witness: a concrete empty items list and a concrete payload
with no container both give exactly the fallback row. -/
theorem claim_C10_witness :
    process_extracted_data [("items", .vlist [])] file0 now0 =
      [create_base_row [("items", .vlist [])] file0 now0] ∧
    process_extracted_data [("po_number", .vstr "P1")] file0 now0 =
      [create_base_row [("po_number", .vstr "P1")] file0 now0] :=
  ⟨(claim_C10 [("items", .vlist [])] file0 now0).1 rfl,
   (claim_C10 [("po_number", .vstr "P1")] file0 now0).2 rfl⟩

/-- Claim C4 counterexample: a record with only the section-6 alias vendor
and no item container goes through the fallback row, whose supplier column
ignores the vendor alias; the section-6 chain resolves Acme, the emitted
row holds the empty string.  So not every emitted row resolves every
canonical column through its full section-6 chain. -/
theorem claim_C4_counterexample :
    process_extracted_data c4_payload file0 now0 = [create_base_row c4_payload file0 now0] ∧
    (create_base_row c4_payload file0 now0).lookup "supplier" = some "" ∧
    spec_resolve c4_payload chain_supplier = "Acme" :=
  ⟨rfl, rfl, rfl⟩

/-- Claim C4 as amended: in per-item rows every canonical column follows
its full section-6 chain under first-present-key semantics (absent keys
and None values resolve to the empty string, resolution is total); in the
single-row fallback each column follows the truncated chain of
create_base_row shown here, not the section-6 chain. -/
theorem claim_C4_amended (o item : List (String × Value)) (f : FileInfo) (now : String) :
    clean_row (make_item_row o item f now) =
      [("grn_date", spec_resolve o chain_grn_date),
       ("grndate", spec_resolve o chain_grn_date),
       ("source_file", cleanV (.vstr f.name)),
       ("processed_date", cleanV (.vstr now)),
       ("supplier", spec_resolve o chain_supplier),
       ("po_number", spec_resolve o chain_po_number),
       ("shipping_address", spec_resolve o chain_shipping_address),
       ("vendor_invoice_number", spec_resolve o chain_vendor_invoice_number),
       ("drive_file_id", cleanV (.vstr f.id)),
       ("item_description", spec_resolve item chain_item_description),
       ("rcv_qty", spec_resolve item chain_rcv_qty),
       ("ord_qty", spec_resolve item chain_ord_qty),
       ("ord.qty", spec_resolve item ["ord.qty", "ord_qty", "ordered_quantity"]),
       ("uom", spec_resolve item chain_uom),
       ("sku", spec_resolve item chain_sku),
       ("variant_ean", spec_resolve item chain_variant_ean),
       ("variant.ean", spec_resolve item ["variant.ean", "ean", "barcode"]),
       ("hsn_code", spec_resolve item chain_hsn_code),
       ("unit_cost", spec_resolve item chain_unit_cost),
       ("tax_amount", spec_resolve item chain_tax_amount),
       ("tax amount", spec_resolve item ["tax amount", "tax_amount", "tax"]),
       ("tax_percentage", spec_resolve item chain_tax_percentage),
       ("mrp", spec_resolve item chain_mrp),
       ("net_value", spec_resolve item chain_net_value)] ∧
    create_base_row o f now =
      [("grn_date", spec_resolve o ["grn_date", "date"]),
       ("grndate", spec_resolve o ["grn_date", "date"]),
       ("source_file", cleanV (.vstr f.name)),
       ("processed_date", cleanV (.vstr now)),
       ("supplier", spec_resolve o ["supplier", "vendor_name"]),
       ("po_number", spec_resolve o ["po_number", "purchase_order_number"]),
       ("shipping_address", spec_resolve o ["shipping_address", "delivery_address"]),
       ("vendor_invoice_number", spec_resolve o ["vendor_invoice_number", "invoice_number"]),
       ("drive_file_id", cleanV (.vstr f.id)),
       ("item_description", spec_resolve o ["item_description"]),
       ("rcv_qty", spec_resolve o ["rcv_qty"]),
       ("ord_qty", spec_resolve o ["ord_qty", "quantity"]),
       ("ord.qty", spec_resolve o ["ord_qty"]),
       ("uom", spec_resolve o ["uom"]),
       ("sku", spec_resolve o ["sku"]),
       ("variant_ean", spec_resolve o ["ean"]),
       ("variant.ean", spec_resolve o ["ean"]),
       ("hsn_code", spec_resolve o ["hsn_code"]),
       ("unit_cost", spec_resolve o ["unit_cost"]),
       ("tax_amount", spec_resolve o ["tax_amount"]),
       ("tax amount", spec_resolve o ["tax_amount"]),
       ("tax_percentage", spec_resolve o ["tax_percentage"]),
       ("mrp", spec_resolve o ["mrp"]),
       ("net_value", spec_resolve o ["net_value"])] := by
  constructor <;> simp [clean_row, make_item_row, create_base_row, clean_resolveRaw]

/-- Claim C5 counterexample: the item qty 5 makes ord_qty resolve to 5
while the legacy column ord.qty (whose chain does not include quantity or
qty) stays empty, so a legacy-alias duplicate differs from its canonical
counterpart in an emitted row. -/
theorem claim_C5_counterexample :
    ((process_extracted_data c5_payload file0 now0).getD 0 []).lookup "ord_qty" = some "5" ∧
    ((process_extracted_data c5_payload file0 now0).getD 0 []).lookup "ord.qty" = some "" :=
  ⟨rfl, rfl⟩

/-- Claim C5 as amended: grndate always equals grn_date in every emitted
row, and in fallback rows variant.ean equals variant_ean and the
tax amount column equals tax_amount; the remaining legacy duplicates
(ord.qty, variant.ean, tax amount in item rows and ord.qty in fallback
rows) use different alias chains and can differ from their canonical
counterparts. -/
theorem claim_C5_amended (o : List (String × Value)) (f : FileInfo) (now : String) :
    (∀ row ∈ process_extracted_data o f now,
      row.lookup "grndate" = row.lookup "grn_date") ∧
    (create_base_row o f now).lookup "variant.ean" =
      (create_base_row o f now).lookup "variant_ean" ∧
    (create_base_row o f now).lookup "tax amount" =
      (create_base_row o f now).lookup "tax_amount" := by
  refine ⟨?_, rfl, rfl⟩
  intro row hrow
  rcases process_rows_cases o f now row hrow with h | ⟨io, h⟩ <;> subst h <;> rfl

/-- Claim C5 witness: grndate equals grn_date in the concrete emitted
row of the qty-5 scenario. -/
theorem claim_C5_witness :
    ((process_extracted_data c5_payload file0 now0).getD 0 []).lookup "grndate" =
      ((process_extracted_data c5_payload file0 now0).getD 0 []).lookup "grn_date" :=
  (claim_C5_amended c5_payload file0 now0).1
    ((process_extracted_data c5_payload file0 now0).getD 0 []) (by decide)

/-- Claim C9 counterexample: the hash character is not in the replaced
set, so the scenario filename does not sanitize to GRN_2024_01.pdf. -/
theorem claim_C9_counterexample :
    sanitize_filename "GRN#2024/01.pdf" ≠ "GRN_2024_01.pdf" := by decide

/-- Claim C9 as amended: sanitization replaces exactly the characters
of bad_chars with an underscore (hash is kept, so the scenario filename
becomes GRN#2024_01.pdf); names of at most 100 characters are only
character-replaced; an over-long name without a dot is cut to 100
characters, while an over-long dotted name keeps its extension and cuts
the base to 95 characters, which exceeds 100 total when the extension is
longer than 4 characters. -/
theorem claim_C9_amended :
    sanitize_filename "GRN#2024/01.pdf" = "GRN#2024_01.pdf" ∧
    (∀ fn : String, fn.length ≤ 100 →
      (sanitize_filename fn).data = fn.data.map replace_bad) ∧
    sanitize_filename (String.mk (List.replicate 105 'a')) =
      String.mk (List.replicate 100 'a') ∧
    sanitize_filename (String.mk (List.replicate 100 'a' ++ '.' :: "abcde".data)) =
      String.mk (List.replicate 95 'a' ++ '.' :: "abcde".data) ∧
    (sanitize_filename (String.mk (List.replicate 100 'a' ++ '.' :: "abcde".data))).length
      = 101 := by
  refine ⟨by decide, ?_, by decide, by decide, by decide⟩
  intro fn h
  have e : (fn.data.map replace_bad).length = fn.length := by
    cases fn with
    | mk l =>
      rw [List.length_map]
      rfl
  have hlen : ¬ (100 < (fn.data.map replace_bad).length) := by omega
  simp only [sanitize_filename]
  rw [if_neg hlen]

/-- Claim C9 witness: the scenario filename is short, so sanitization is
the plain character replacement there. -/
theorem claim_C9_witness :
    (sanitize_filename "GRN#2024/01.pdf").data = "GRN#2024/01.pdf".data.map replace_bad :=
  claim_C9_amended.2.1 "GRN#2024/01.pdf" (by decide)

/-- Widening always makes the header complete for the expected columns. -/
theorem reconcile_headers_complete (h : List String) :
    ∀ c ∈ expected_columns, c ∈ (reconcile_headers h).1 := by
  intro c hc
  simp only [reconcile_headers]
  split
  · exact hc
  · split
    · next hm =>
      have := List.filter_eq_nil_iff.mp hm c hc
      simpa using this
    · by_cases hch : c ∈ h
      · exact List.mem_append_left _ hch
      · exact List.mem_append_right _ (List.mem_filter.mpr ⟨hc, by simpa using hch⟩)

/-- Reconciling a header that already contains every expected column is a
no-op and performs no write. -/
theorem reconcile_headers_noop (h : List String)
    (hall : ∀ c ∈ expected_columns, c ∈ h) :
    reconcile_headers h = (h, false) := by
  have hne : h ≠ [] := List.ne_nil_of_mem (hall "item_description" (by decide))
  have hm : expected_columns.filter (fun c => decide (c ∉ h)) = [] :=
    List.filter_eq_nil_iff.mpr (fun c hc => by simpa using hall c hc)
  simp only [reconcile_headers]
  rw [if_neg hne, if_pos hm]

/-- Claim C6: header reconciliation is monotonic, order-preserving and
idempotent: a nonempty header is extended exactly by the missing expected
columns in their declared order, every existing header is a prefix of the
result, the result contains every expected column, a header already
containing every expected column is returned unchanged with no write, and
reconciling a reconciled header performs no write. -/
theorem claim_C6 (h : List String) :
    (h ≠ [] → (reconcile_headers h).1 =
        h ++ expected_columns.filter (fun c => decide (c ∉ h))) ∧
    (∃ t, (reconcile_headers h).1 = h ++ t) ∧
    (∀ c ∈ expected_columns, c ∈ (reconcile_headers h).1) ∧
    ((∀ c ∈ expected_columns, c ∈ h) → reconcile_headers h = (h, false)) ∧
    reconcile_headers (reconcile_headers h).1 = ((reconcile_headers h).1, false) := by
  have hexact : h ≠ [] → (reconcile_headers h).1 =
      h ++ expected_columns.filter (fun c => decide (c ∉ h)) := by
    intro hh
    simp only [reconcile_headers]
    rw [if_neg hh]
    split
    · next hm => rw [hm]; simp
    · rfl
  refine ⟨hexact, ?_, reconcile_headers_complete h, reconcile_headers_noop h, ?_⟩
  · by_cases hh : h = []
    · subst hh
      exact ⟨expected_columns, by simp [reconcile_headers]⟩
    · exact ⟨_, hexact hh⟩
  · exact reconcile_headers_noop _ (reconcile_headers_complete h)

/-- Claim C6 witness: reconciling the full expected header is a no-op
with no write. -/
theorem claim_C6_witness :
    reconcile_headers expected_columns = (expected_columns, false) :=
  (claim_C6 expected_columns).2.2.2.1 (fun _ hc => hc)

/-- A stub that fails every attempt makes safe_extract fail after exactly
three calls. -/
theorem safe_extract_all_none (stub : Nat → Option Value) (h : ∀ i, stub i = none) :
    safe_extract stub 3 = (none, 3) := by
  simp [safe_extract, safe_extract_aux, h]

/-- Claim C7: with max_attempts 3, a stub failing the first two calls and
succeeding on the third makes the wrapped extraction succeed after exactly
three underlying calls; an always-failing stub makes it fail after exactly
three calls; and in the per-file loop an always-failing extraction records
exactly one failed document (logging its three calls) and the loop
continues with the remaining candidates from an otherwise unchanged
state. -/
theorem claim_C7 :
    (∀ (stub : Nat → Option Value) (v : Value),
      stub 1 = none → stub 2 = none → stub 3 = some v →
      safe_extract stub 3 = (some v, 3)) ∧
    (∀ stub : Nat → Option Value, (∀ i, stub i = none) →
      safe_extract stub 3 = (none, 3)) ∧
    (∀ (w : World) (headers : List String) (now : String) (s : PipeState)
      (f : FileInfo) (rest : List FileInfo),
      w.downloadOk f = true → (∀ i, w.extractAttempt f i = none) →
      List.foldl (processFile w headers now) s (f :: rest) =
        List.foldl (processFile w headers now)
          { s with stats := { s.stats with files_failed := s.stats.files_failed + 1 },
                   log := s.log ++ [(f, 3)] } rest) := by
  refine ⟨?_, ?_, ?_⟩
  · intro stub v h1 h2 h3
    simp [safe_extract, safe_extract_aux, h1, h2, h3]
  · intro stub h
    exact safe_extract_all_none stub h
  · intro w headers now s f rest hd hex
    rw [List.foldl_cons]
    congr 1
    simp [processFile, hd, safe_extract_all_none _ hex]

/-- Claim C7 witness: the three parts at concrete stubs, a concrete world
and a concrete file. -/
theorem claim_C7_witness :
    safe_extract stub3 3 = (some (.vstr "ok"), 3) ∧
    safe_extract (fun _ => none) 3 = (none, 3) ∧
    List.foldl (processFile world_allfail [] "t") ⟨[], ⟨0, 0, 0, 0, 0⟩, []⟩ [file0] =
      ⟨[], ⟨0, 0, 1, 0, 0⟩, [(file0, 3)]⟩ := by
  refine ⟨claim_C7.1 stub3 (.vstr "ok") rfl rfl rfl,
          claim_C7.2.1 (fun _ => none) (fun _ => rfl), ?_⟩
  rw [claim_C7.2.2 world_allfail [] "t" ⟨[], ⟨0, 0, 0, 0, 0⟩, []⟩ file0 []
    rfl (fun _ => rfl)]
  rfl

/-- Zipping a list with its own map pairs every element with its image. -/
theorem zip_map_self {β : Type} (g : String → β) (l : List String) :
    l.zip (l.map g) = l.map (fun a => (a, g a)) := by
  induction l with
  | nil => rfl
  | cons a t ih => simp [ih]

/-- Lookup misses when the key is not among the stored keys. -/
theorem lookup_eq_none_of_not_mem {β : Type} (k : String) (l : List (String × β))
    (h : k ∉ l.map Prod.fst) : l.lookup k = none := by
  induction l with
  | nil => rfl
  | cons kv t ih =>
    obtain ⟨a, b⟩ := kv
    simp only [List.map_cons, List.mem_cons] at h
    push_neg at h
    obtain ⟨h1, h2⟩ := h
    simp [List.lookup, ih h2, beq_eq_false_iff_ne.mpr h1]

/-- Claim C8: the store-row vector has one entry per header column, in
exact header order; each entry is the stripped resolved value of its
column and a column the row does not resolve is emitted as the empty
string; no column is omitted. -/
theorem claim_C8 (headers : List String) (row : List (String × String)) :
    (sheet_row_of headers row).length = headers.length ∧
    (headers.zip (sheet_row_of headers row)).map Prod.fst = headers ∧
    (∀ p ∈ headers.zip (sheet_row_of headers row),
      p.2 = pyStrip ((row.lookup p.1).getD "")) ∧
    (∀ p ∈ headers.zip (sheet_row_of headers row),
      p.1 ∉ row.map Prod.fst → p.2 = "") := by
  have hz : headers.zip (sheet_row_of headers row) =
      headers.map (fun a => (a, pyStrip ((row.lookup a).getD ""))) := by
    unfold sheet_row_of
    exact zip_map_self _ _
  refine ⟨by simp [sheet_row_of], ?_, ?_, ?_⟩
  · exact List.map_fst_zip _ _ (by simp [sheet_row_of])
  · intro p hp
    rw [hz, List.mem_map] at hp
    obtain ⟨a, _, rfl⟩ := hp
    rfl
  · intro p hp hnm
    rw [hz, List.mem_map] at hp
    obtain ⟨a, _, rfl⟩ := hp
    show pyStrip ((row.lookup a).getD "") = ""
    rw [lookup_eq_none_of_not_mem a row hnm]
    rfl

/-- Claim C8 witness: a concrete header with one unresolved column gives a
vector of the full header length whose unresolved entry is empty. -/
theorem claim_C8_witness :
    (sheet_row_of ["source_file", "missing_col"] [("source_file", " x.pdf ")]).length =
      (["source_file", "missing_col"] : List String).length ∧
    (("missing_col", "") : String × String).2 = "" :=
  ⟨(claim_C8 ["source_file", "missing_col"] [("source_file", " x.pdf ")]).1,
   (claim_C8 ["source_file", "missing_col"] [("source_file", " x.pdf ")]).2.2.2
     ("missing_col", "") (by decide) (by decide)⟩

/-- The number of normalized rows does not depend on the modelled wall
clock. -/
theorem process_len_now (o : List (String × Value)) (f : FileInfo) (now now' : String) :
    (process_extracted_data o f now).length = (process_extracted_data o f now').length := by
  unfold process_extracted_data
  by_cases hi : ((findItems item_keys o).getD []).isEmpty = true
  · rw [if_pos hi, if_pos hi]
    rfl
  · rw [if_neg hi, if_neg hi]
    generalize (findItems item_keys o).getD [] = l
    induction l with
    | nil => rfl
    | cons v t ih =>
      rw [List.flatMap_cons, List.flatMap_cons, List.length_append, List.length_append, ih]
      congr 1
      cases v <;> rfl

/-- The number of rows of one payload does not depend on the wall clock. -/
theorem payload_rows_len_now (p : Value) (f : FileInfo) (now now' : String) :
    (payload_rows p f now).length = (payload_rows p f now').length := by
  cases p with
  | vobj o => exact process_len_now o f now now'
  | vlist chunks =>
    simp only [payload_rows]
    induction chunks with
    | nil => rfl
    | cons c t ih =>
      rw [List.flatMap_cons, List.flatMap_cons, List.length_append, List.length_append, ih]
      congr 1
      cases c with
      | vobj o => exact process_len_now o f now now'
      | vnull => rfl
      | vbool b => rfl
      | vint n => rfl
      | vstr s => rfl
      | vlist l => rfl
  | vnull => rfl
  | vbool b => rfl
  | vint n => rfl
  | vstr s => rfl

/-- Emptiness of the normalized rows of a payload does not depend on the
wall clock. -/
theorem payload_rows_empty_iff (p : Value) (f : FileInfo) (now : String) :
    payload_rows p f now = [] ↔ payload_rows p f "" = [] := by
  constructor <;> intro h
  · have e : (payload_rows p f "").length = 0 := by
      rw [← payload_rows_len_now p f now "", h]
      rfl
    exact List.length_eq_zero.mp e
  · have e : (payload_rows p f now).length = 0 := by
      rw [payload_rows_len_now p f now "", h]
      rfl
    exact List.length_eq_zero.mp e

/-- Every emitted row carries the cleaned file name in its source_file
column. -/
theorem row_lookup_source_file (o : List (String × Value)) (f : FileInfo) (now : String) :
    ∀ row ∈ process_extracted_data o f now,
      row.lookup "source_file" = some (cleanV (.vstr f.name)) := by
  intro row hrow
  rcases process_rows_cases o f now row hrow with h | ⟨io, h⟩ <;> subst h <;> rfl

/-- Every row normalized out of any payload carries the cleaned file name
in its source_file column. -/
theorem payload_lookup_source_file (p : Value) (f : FileInfo) (now : String) :
    ∀ row ∈ payload_rows p f now,
      row.lookup "source_file" = some (cleanV (.vstr f.name)) := by
  intro row hrow
  cases p with
  | vobj o => exact row_lookup_source_file o f now row hrow
  | vlist chunks =>
    simp only [payload_rows] at hrow
    rw [List.mem_flatMap] at hrow
    obtain ⟨c, _, hc⟩ := hrow
    cases c with
    | vobj o => exact row_lookup_source_file o f now row hc
    | vnull => simp at hc
    | vbool b => simp at hc
    | vint n => simp at hc
    | vstr s => simp at hc
    | vlist l => simp at hc
  | vnull => simp [payload_rows] at hrow
  | vbool b => simp [payload_rows] at hrow
  | vint n => simp [payload_rows] at hrow
  | vstr s => simp [payload_rows] at hrow

/-- Cleanup keeps a nonempty already-stripped name unchanged. -/
theorem cleanV_name (nm : String) (hn : pyStrip nm = nm) (hne : nm ≠ "") :
    cleanV (.vstr nm) = nm := by
  simp [cleanV, hne, hn]

/-- The position found by idx_of is inside the list when the column is
present. -/
theorem idx_of_lt (c : String) (l : List String) (h : c ∈ l) : idx_of c l < l.length := by
  induction l with
  | nil => cases h
  | cons a t ih =>
    by_cases e : a = c
    · simp [idx_of, e]
    · have h' : c ∈ t := by
        rcases List.mem_cons.mp h with rfl | ht
        · exact absurd rfl e
        · exact ht
      simp only [idx_of, List.length_cons]
      rw [if_neg e]
      exact Nat.succ_lt_succ (ih h')

/-- The element at the found position is the searched column. -/
theorem getD_idx_of (c : String) (l : List String) (h : c ∈ l) :
    l.getD (idx_of c l) "" = c := by
  induction l with
  | nil => cases h
  | cons a t ih =>
    by_cases e : a = c
    · simp [idx_of, e]
    · have h' : c ∈ t := by
        rcases List.mem_cons.mp h with rfl | ht
        · exact absurd rfl e
        · exact ht
      simp only [idx_of]
      rw [if_neg e]
      simpa using ih h'

/-- Appending columns after a header keeps the position of a present
column. -/
theorem idx_of_append (c : String) (l t : List String) (h : c ∈ l) :
    idx_of c (l ++ t) = idx_of c l := by
  induction l with
  | nil => cases h
  | cons a r ih =>
    by_cases e : a = c
    · simp [idx_of, e]
    · have h' : c ∈ r := by
        rcases List.mem_cons.mp h with rfl | ht
        · exact absurd rfl e
        · exact ht
      simp only [List.cons_append, idx_of]
      rw [if_neg e, if_neg e]
      show idx_of c (r ++ t) + 1 = idx_of c r + 1
      rw [ih h']

/-- getD through map at a position inside the list. -/
theorem getD_map_of_lt {α β : Type} (g : α → β) (l : List α) (i : Nat)
    (h : i < l.length) (d : α) (d' : β) :
    (l.map g).getD i d' = g (l.getD i d) := by
  induction l generalizing i with
  | nil => simp at h
  | cons a t ih =>
    cases i with
    | zero => rfl
    | succ n =>
      simp only [List.map_cons, List.getD_cons_succ]
      exact ih n (by simpa using h)

/-- Appending data rows can only grow the dedup index. -/
theorem existing_mono_append (r0 : List String) (data more : List (List String)) :
    ∀ x ∈ get_existing_source_files (r0 :: data),
      x ∈ get_existing_source_files (r0 :: (data ++ more)) := by
  intro x hx
  simp only [get_existing_source_files] at hx ⊢
  by_cases hsf : "source_file" ∈ r0
  · rw [if_pos hsf] at hx ⊢
    simp only [List.mem_map, List.mem_filter] at hx ⊢
    obtain ⟨r, ⟨hr, hcond⟩, hval⟩ := hx
    exact ⟨r, ⟨List.mem_append_left _ hr, hcond⟩, hval⟩
  · rw [if_neg hsf] at hx
    cases hx

/-- Widening the header row does not lose dedup-index entries. -/
theorem existing_header_extend (r0 missing : List String) (rest : List (List String)) :
    ∀ x ∈ get_existing_source_files (r0 :: rest),
      x ∈ get_existing_source_files ((r0 ++ missing) :: rest) := by
  intro x hx
  simp only [get_existing_source_files] at hx ⊢
  by_cases hsf : "source_file" ∈ r0
  · rw [if_pos hsf] at hx
    rw [if_pos (List.mem_append_left _ hsf), idx_of_append _ _ _ hsf]
    exact hx
  · rw [if_neg hsf] at hx
    cases hx

/-- A data row holding a nonempty value in the source_file column puts
that value into the dedup index. -/
theorem mem_existing_of_row (r0 : List String) (data : List (List String))
    (r : List String) (hr : r ∈ data) (hsf : "source_file" ∈ r0)
    (hlen : idx_of "source_file" r0 < r.length)
    (hval : r.getD (idx_of "source_file" r0) "" ≠ "") :
    r.getD (idx_of "source_file" r0) "" ∈ get_existing_source_files (r0 :: data) := by
  simp only [get_existing_source_files]
  rw [if_pos hsf]
  simp only [List.mem_map, List.mem_filter]
  exact ⟨r, ⟨hr, by simp only [decide_eq_true_eq]; exact ⟨hlen, hval⟩⟩, rfl⟩

/-- The store-row vector of a row that resolves source_file carries the
stripped value at the source_file position of the header. -/
theorem sheet_row_source_file (headers : List String) (row : List (String × String))
    (hsf : "source_file" ∈ headers) (v : String)
    (hlook : row.lookup "source_file" = some v) :
    (sheet_row_of headers row).getD (idx_of "source_file" headers) "" = pyStrip v ∧
    idx_of "source_file" headers < (sheet_row_of headers row).length := by
  constructor
  · unfold sheet_row_of
    rw [getD_map_of_lt _ headers _ (idx_of_lt _ _ hsf) ""]
    rw [getD_idx_of _ _ hsf, hlook]
    rfl
  · unfold sheet_row_of
    simpa using idx_of_lt _ _ hsf

/-- Case analysis of one per-file iteration: either the file fails for a
deterministic reason, leaving the sheet and rows_added untouched, or all
of download, extraction and append succeed and the normalized rows are
appended as one batch; in both cases the extraction log grows by at most
the one invocation for this file. -/
theorem processFile_cases (w : World) (h : List String) (now : String) (s : PipeState)
    (f : FileInfo) :
    (FileFails w f ∧ (processFile w h now s f).values = s.values ∧
      (processFile w h now s f).stats.rows_added = s.stats.rows_added ∧
      ((processFile w h now s f).log = s.log ∨
        (processFile w h now s f).log =
          s.log ++ [(f, (safe_extract (w.extractAttempt f) 3).2)])) ∨
    (∃ p, w.downloadOk f = true ∧ w.appendOk f = true ∧
      (safe_extract (w.extractAttempt f) 3).1 = some p ∧
      payload_rows p f now ≠ [] ∧
      (processFile w h now s f).values =
        s.values ++ (payload_rows p f now).map (sheet_row_of h) ∧
      (processFile w h now s f).log =
        s.log ++ [(f, (safe_extract (w.extractAttempt f) 3).2)]) := by
  by_cases hd : w.downloadOk f = false
  · left
    refine ⟨Or.inl hd, ?_, ?_, Or.inl ?_⟩ <;> simp [processFile, hd]
  · have hd' : w.downloadOk f = true := by revert hd; cases w.downloadOk f <;> simp
    cases he : (safe_extract (w.extractAttempt f) 3).1 with
    | none =>
      left
      refine ⟨Or.inr (Or.inl he), ?_, ?_, Or.inr ?_⟩ <;> simp [processFile, hd', he]
    | some p =>
      by_cases hr : payload_rows p f now = []
      · left
        have hff : FileFails w f := by
          right; right; left
          intro q hq
          rw [he] at hq
          injection hq with hq'
          subst hq'
          exact (payload_rows_empty_iff p f now).mp hr
        refine ⟨hff, ?_, ?_, Or.inr ?_⟩ <;> simp [processFile, hd', he, hr]
      · have hie : (payload_rows p f now).isEmpty = false := by
          cases hb : (payload_rows p f now).isEmpty
          · rfl
          · exact absurd (List.isEmpty_iff.mp hb) hr
        by_cases ha : w.appendOk f = true
        · right
          refine ⟨p, hd', ha, rfl, hr, ?_, ?_⟩ <;> simp [processFile, hd', he, hie, ha]
        · left
          have ha' : w.appendOk f = false := by revert ha; cases w.appendOk f <;> simp
          refine ⟨Or.inr (Or.inr (Or.inr ha')), ?_, ?_, Or.inr ?_⟩ <;>
            simp [processFile, hd', he, hie, ha']

/-- A file that fails leaves the sheet and the row counter unchanged. -/
theorem processFile_of_fails (w : World) (h : List String) (now : String) (s : PipeState)
    (f : FileInfo) (hf : FileFails w f) :
    (processFile w h now s f).values = s.values ∧
    (processFile w h now s f).stats.rows_added = s.stats.rows_added := by
  rcases processFile_cases w h now s f with ⟨_, hv, hr, _⟩ | ⟨p, hd, ha, he, hrne, _, _⟩
  · exact ⟨hv, hr⟩
  · exfalso
    rcases hf with h1 | h2 | h3 | h4
    · rw [hd] at h1
      cases h1
    · rw [h2] at he
      cases he
    · exact hrne ((payload_rows_empty_iff p f now).mpr (h3 p he))
    · rw [ha] at h4
      cases h4

/-- One iteration only appends to the sheet. -/
theorem processFile_values (w : World) (h : List String) (now : String) (s : PipeState)
    (f : FileInfo) :
    ∃ more, (processFile w h now s f).values = s.values ++ more := by
  rcases processFile_cases w h now s f with ⟨_, hv, _, _⟩ | ⟨p, _, _, _, _, hv, _⟩
  · exact ⟨[], by simp [hv]⟩
  · exact ⟨_, hv⟩

/-- One iteration logs at most one extraction invocation, for its own
file. -/
theorem processFile_log (w : World) (h : List String) (now : String) (s : PipeState)
    (f : FileInfo) :
    ∀ e ∈ (processFile w h now s f).log, e ∈ s.log ∨ e.1 = f := by
  intro e he
  have hsplit : (processFile w h now s f).log = s.log ∨
      (processFile w h now s f).log =
        s.log ++ [(f, (safe_extract (w.extractAttempt f) 3).2)] := by
    rcases processFile_cases w h now s f with ⟨_, _, _, hl⟩ | ⟨p, _, _, _, _, _, hl⟩
    · exact hl
    · exact Or.inr hl
  rcases hsplit with hl | hl
  · rw [hl] at he
    exact Or.inl he
  · rw [hl] at he
    rcases List.mem_append.mp he with h1 | h2
    · exact Or.inl h1
    · right
      rw [List.mem_singleton] at h2
      rw [h2]

/-- The per-file loop only appends to the sheet. -/
theorem fold_values_append (w : World) (h : List String) (now : String) :
    ∀ (files : List FileInfo) (s : PipeState),
      ∃ more, (List.foldl (processFile w h now) s files).values = s.values ++ more := by
  intro files
  induction files with
  | nil => exact fun s => ⟨[], by simp⟩
  | cons f t ih =>
    intro s
    rw [List.foldl_cons]
    obtain ⟨m1, h1⟩ := processFile_values w h now s f
    obtain ⟨m2, h2⟩ := ih (processFile w h now s f)
    exact ⟨m1 ++ m2, by rw [h2, h1, List.append_assoc]⟩

/-- The per-file loop never removes dedup-index entries. -/
theorem fold_existing_mono (w : World) (h : List String) (now : String) :
    ∀ (files : List FileInfo) (s : PipeState) (x : String),
      x ∈ get_existing_source_files s.values →
      x ∈ get_existing_source_files (List.foldl (processFile w h now) s files).values := by
  intro files
  induction files with
  | nil => exact fun s x hx => hx
  | cons f t ih =>
    intro s x hx
    rw [List.foldl_cons]
    apply ih
    obtain ⟨more, hm⟩ := processFile_values w h now s f
    cases hv : s.values with
    | nil =>
      rw [hv] at hx
      simp [get_existing_source_files] at hx
    | cons r0 rest =>
      rw [hv] at hx hm
      rw [hm]
      exact existing_mono_append r0 rest more x hx

/-- When every file of the list fails, the loop leaves the sheet and the
row counter untouched. -/
theorem fold_all_fail (w : World) (h : List String) (now : String) :
    ∀ (files : List FileInfo) (s : PipeState), (∀ f ∈ files, FileFails w f) →
      (List.foldl (processFile w h now) s files).values = s.values ∧
      (List.foldl (processFile w h now) s files).stats.rows_added =
        s.stats.rows_added := by
  intro files
  induction files with
  | nil => exact fun s _ => ⟨rfl, rfl⟩
  | cons f t ih =>
    intro s hall
    rw [List.foldl_cons]
    have hstep := processFile_of_fails w h now s f (hall f (by simp))
    obtain ⟨ht1, ht2⟩ := ih (processFile w h now s f) (fun g hg => hall g (by simp [hg]))
    exact ⟨ht1.trans hstep.1, ht2.trans hstep.2⟩

/-- Every extraction-log entry of the loop belongs to the initial log or
names one of the processed files. -/
theorem fold_log (w : World) (h : List String) (now : String) :
    ∀ (files : List FileInfo) (s : PipeState) (e : FileInfo × Nat),
      e ∈ (List.foldl (processFile w h now) s files).log → e ∈ s.log ∨ e.1 ∈ files := by
  intro files
  induction files with
  | nil => exact fun s e he => Or.inl he
  | cons f t ih =>
    intro s e he
    rw [List.foldl_cons] at he
    rcases ih (processFile w h now s f) e he with h1 | h2
    · rcases processFile_log w h now s f e h1 with h3 | h4
      · exact Or.inl h3
      · exact Or.inr (by simp [h4])
    · exact Or.inr (by simp [h2])

/-- Loop coverage: every processed file either fails deterministically or
ends up with its name in the dedup index of the resulting sheet, provided
the sheet header row equals the run headers, those contain source_file,
and the file name is nonempty and stripped. -/
theorem fold_covers (w : World) (headers : List String) (now : String)
    (hsf : "source_file" ∈ headers) :
    ∀ (files : List FileInfo) (s : PipeState) (data : List (List String)),
      s.values = headers :: data →
      ∀ f ∈ files, pyStrip f.name = f.name → f.name ≠ "" →
        FileFails w f ∨
          f.name ∈ get_existing_source_files
            (List.foldl (processFile w headers now) s files).values := by
  intro files
  induction files with
  | nil =>
    intro s data hv f hf
    cases hf
  | cons g t ih =>
    intro s data hv f hf hn hne
    rw [List.foldl_cons]
    obtain ⟨more, hmore⟩ := processFile_values w headers now s g
    have hv' : (processFile w headers now s g).values = headers :: (data ++ more) := by
      rw [hmore, hv]
      rfl
    rcases List.mem_cons.mp hf with rfl | hft
    · by_cases hfail : FileFails w f
      · exact Or.inl hfail
      · right
        rcases processFile_cases w headers now s f with ⟨hf', _⟩ | ⟨p, _, _, _, hrne, hvv, _⟩
        · exact absurd hf' hfail
        · apply fold_existing_mono w headers now t (processFile w headers now s f) f.name
          obtain ⟨r, hr⟩ : ∃ r, r ∈ payload_rows p f now := by
            cases hrows : payload_rows p f now with
            | nil => exact absurd hrows hrne
            | cons a l => exact ⟨a, by simp [hrows]⟩
          have hlook := payload_lookup_source_file p f now r hr
          rw [cleanV_name f.name hn hne] at hlook
          obtain ⟨hcell, hlenr⟩ := sheet_row_source_file headers r hsf f.name hlook
          have hmem : sheet_row_of headers r ∈
              (payload_rows p f now).map (sheet_row_of headers) :=
            List.mem_map_of_mem _ hr
          have hvv' : (processFile w headers now s f).values =
              headers :: (data ++ (payload_rows p f now).map (sheet_row_of headers)) := by
            rw [hvv, hv]
            rfl
          rw [hvv']
          have hval : (sheet_row_of headers r).getD (idx_of "source_file" headers) ""
              = f.name := by
            rw [hcell, hn]
          rw [← hval]
          exact mem_existing_of_row headers _ (sheet_row_of headers r)
            (List.mem_append_right _ hmem) hsf hlenr (by rw [hval]; exact hne)
    · exact ih (processFile w headers now s g) (data ++ more) hv' f hft hn hne

/-- Unfolding of the header reconciliation step. -/
theorem reconcile_store_eq (values : List (List String)) :
    reconcile_store values =
      (if (reconcile_headers (get_sheet_headers values)).2
       then (update_headers values (reconcile_headers (get_sheet_headers values)).1).1
       else values,
       (reconcile_headers (get_sheet_headers values)).1) := rfl

/-- Shape of the sheet after header reconciliation, for a header row of
at most 26 cells (the A1:Z1 read window) whose widening stays within the
26-column write window, so that the header write of update_headers
succeeds: the first row of the store equals the run headers, those
contain source_file, and no dedup-index entry is lost. -/
theorem reconcile_store_shape (values0 : List (List String))
    (Hhdr : (values0.headD []).length ≤ 26)
    (Hwide : (reconcile_headers (get_sheet_headers values0)).1.length ≤ 26) :
    (∃ tail, (reconcile_store values0).1 = (reconcile_store values0).2 :: tail) ∧
    "source_file" ∈ (reconcile_store values0).2 ∧
    (∀ x ∈ get_existing_source_files values0,
      x ∈ get_existing_source_files (reconcile_store values0).1) := by
  cases values0 with
  | nil =>
    refine ⟨⟨[], rfl⟩, by decide, ?_⟩
    intro x hx
    simp [get_existing_source_files] at hx
  | cons r0 rest =>
    have hr0 : r0.length ≤ 26 := by simpa using Hhdr
    have hdrs : get_sheet_headers (r0 :: rest) = r0 := by
      simp only [get_sheet_headers, List.headD]
      exact List.take_of_length_le hr0
    by_cases h0 : r0 = []
    · subst h0
      have hcond : 1 ≤ expected_columns.length ∧ expected_columns.length ≤ 26 := by decide
      have e2 : update_headers ([] :: rest) expected_columns =
          (set_header_row ([] :: rest) expected_columns, true) := by
        unfold update_headers
        rw [if_pos hcond]
      have e3 : set_header_row ([] :: rest) expected_columns = expected_columns :: rest := by
        simp [set_header_row]
      have hrs : reconcile_store ([] :: rest) = (expected_columns :: rest, expected_columns) := by
        rw [reconcile_store_eq, hdrs]
        rw [show reconcile_headers [] = (expected_columns, true) from rfl]
        rw [e2, e3]
        rfl
      rw [hrs]
      refine ⟨⟨rest, rfl⟩, by show "source_file" ∈ expected_columns; decide, ?_⟩
      intro x hx
      simp [get_existing_source_files] at hx
    · by_cases hm : expected_columns.filter (fun c => decide (c ∉ r0)) = []
      · have hre : reconcile_headers r0 = (r0, false) := by
          simp only [reconcile_headers]
          rw [if_neg h0, if_pos hm]
        have hrs : reconcile_store (r0 :: rest) = (r0 :: rest, r0) := by
          simp [reconcile_store, hdrs, hre]
        rw [hrs]
        refine ⟨⟨rest, rfl⟩, ?_, fun x hx => hx⟩
        have := List.filter_eq_nil_iff.mp hm "source_file" (by decide)
        simpa using this
      · have hre : reconcile_headers r0 =
            (r0 ++ expected_columns.filter (fun c => decide (c ∉ r0)), true) := by
          simp only [reconcile_headers]
          rw [if_neg h0, if_neg hm]
        have hdrop :
            r0.drop (r0 ++ expected_columns.filter (fun c => decide (c ∉ r0))).length = [] := by
          apply List.drop_eq_nil_of_le
          simp
        have h26 : (r0 ++ expected_columns.filter (fun c => decide (c ∉ r0))).length ≤ 26 := by
          have hw := Hwide
          rw [hdrs, hre] at hw
          exact hw
        have h1le : 1 ≤ (r0 ++ expected_columns.filter (fun c => decide (c ∉ r0))).length := by
          have hp : 0 < r0.length := List.length_pos.mpr h0
          simp only [List.length_append]
          omega
        have e2 : update_headers (r0 :: rest)
              (r0 ++ expected_columns.filter (fun c => decide (c ∉ r0))) =
            (set_header_row (r0 :: rest)
              (r0 ++ expected_columns.filter (fun c => decide (c ∉ r0))), true) := by
          unfold update_headers
          rw [if_pos ⟨h1le, h26⟩]
        have e3 : set_header_row (r0 :: rest)
              (r0 ++ expected_columns.filter (fun c => decide (c ∉ r0))) =
            (r0 ++ expected_columns.filter (fun c => decide (c ∉ r0))) :: rest := by
          simp only [set_header_row]
          rw [hdrop]
          simp
        have hrs : reconcile_store (r0 :: rest) =
            ((r0 ++ expected_columns.filter (fun c => decide (c ∉ r0))) :: rest,
             r0 ++ expected_columns.filter (fun c => decide (c ∉ r0))) := by
          rw [reconcile_store_eq, hdrs, hre, e2, e3]
          rfl
        rw [hrs]
        refine ⟨⟨rest, rfl⟩, ?_, ?_⟩
        · by_cases hs : "source_file" ∈ r0
          · exact List.mem_append_left _ hs
          · exact List.mem_append_right _
              (List.mem_filter.mpr ⟨by decide, by simpa using hs⟩)
        · intro x hx
          exact existing_header_extend r0 _ rest x hx

/-- Unfolding of the workflow with the dedup filter active. -/
theorem runWorkflow_skip_eq (w : World) (values0 : List (List String))
    (candidates : List FileInfo) (maxFiles : Option Nat) (now : String) :
    runWorkflow w values0 candidates maxFiles true now =
      (if (capped (dedup_filter candidates (get_existing_source_files values0))
            maxFiles).isEmpty
       then (⟨values0,
         ⟨candidates.length, 0, 0,
          candidates.length -
            (dedup_filter candidates (get_existing_source_files values0)).length, 0⟩,
         []⟩ : PipeState)
       else List.foldl
         (processFile w (reconcile_store values0).2 now)
         ⟨(reconcile_store values0).1,
          ⟨candidates.length, 0, 0,
           candidates.length -
             (dedup_filter candidates (get_existing_source_files values0)).length, 0⟩,
          []⟩
         (capped (dedup_filter candidates (get_existing_source_files values0)) maxFiles)) :=
  rfl

/-- Claim C1 counterexample: with the store and candidate list unchanged,
a second run can still append rows.  First scenario: two candidates under
max_files 1, so the second run ingests the file the cap cut off.  Second
scenario: a filename with leading whitespace is stored stripped, so its
listed name never matches the dedup index and it is re-ingested.  Third
scenario: a stored 3-column header without source_file widens to 27
columns, the header write fails over its invalid range and is ignored, so
the stored header stays unwidened, both runs see an empty dedup index and
the same file is appended again. -/
theorem claim_C1_counterexample :
    (runWorkflow world1 (runWorkflow world1 [] [fileA, fileB] (some 1) true "t1").values
      [fileA, fileB] (some 1) true "t2").stats.rows_added = 1 ∧
    (runWorkflow world1 (runWorkflow world1 [] [fileC] none true "t1").values
      [fileC] none true "t2").stats.rows_added = 1 ∧
    (runWorkflow world1
      (runWorkflow world1 [["c1", "c2", "c3"]] [fileA] none true "t1").values
      [fileA] none true "t2").stats.rows_added = 1 := by
  exact ⟨by decide, by decide, by decide⟩

/-- Claim C1 as amended: unconditionally, no extraction call is ever made
for a candidate whose filename already appears in the source_file column
of the store.  Moreover, when the candidate list does not exceed the
max_files cap, every candidate filename is nonempty and free of
surrounding whitespace, the stored header row fits in the A1:Z1 read
window, and the widened header fits the 26-column header-write window
(so the ignored update_headers call actually lands), a second run against
the unchanged store, candidate list and external world appends zero
additional rows. -/
theorem claim_C1_amended (w : World) (values0 : List (List String))
    (candidates : List FileInfo) (maxFiles : Option Nat) (now1 now2 : String)
    (Hnames : ∀ f ∈ candidates, pyStrip f.name = f.name ∧ f.name ≠ "")
    (Hcap : ∀ m, maxFiles = some m → candidates.length ≤ m)
    (Hhdr : (values0.headD []).length ≤ 26)
    (Hwide : (reconcile_headers (get_sheet_headers values0)).1.length ≤ 26) :
    (∀ e ∈ (runWorkflow w values0 candidates maxFiles true now1).log,
      e.1.name ∉ get_existing_source_files values0) ∧
    (runWorkflow w (runWorkflow w values0 candidates maxFiles true now1).values
      candidates maxFiles true now2).stats.rows_added = 0 := by
  have hcapfix : ∀ ex : List String,
      capped (dedup_filter candidates ex) maxFiles = dedup_filter candidates ex := by
    intro ex
    cases maxFiles with
    | none => rfl
    | some m =>
      exact List.take_of_length_le (le_trans (List.length_filter_le _ _) (Hcap m rfl))
  by_cases hE : (dedup_filter candidates (get_existing_source_files values0)).isEmpty = true
  · have h1 : runWorkflow w values0 candidates maxFiles true now1 =
        ⟨values0, ⟨candidates.length, 0, 0,
          candidates.length -
            (dedup_filter candidates (get_existing_source_files values0)).length, 0⟩,
         []⟩ := by
      rw [runWorkflow_skip_eq, hcapfix, if_pos hE]
    constructor
    · intro e he
      rw [h1] at he
      simp at he
    · rw [h1]
      show (runWorkflow w values0 candidates maxFiles true now2).stats.rows_added = 0
      rw [runWorkflow_skip_eq, hcapfix, if_pos hE]
  · have h1 : runWorkflow w values0 candidates maxFiles true now1 =
        List.foldl (processFile w (reconcile_store values0).2 now1)
          ⟨(reconcile_store values0).1,
           ⟨candidates.length, 0, 0,
            candidates.length -
              (dedup_filter candidates (get_existing_source_files values0)).length, 0⟩,
           []⟩
          (dedup_filter candidates (get_existing_source_files values0)) := by
      rw [runWorkflow_skip_eq, hcapfix, if_neg hE]
    obtain ⟨⟨tail0, hshape⟩, hsfh, hmono0⟩ := reconcile_store_shape values0 Hhdr Hwide
    constructor
    · intro e he
      rw [h1] at he
      rcases fold_log w _ now1 _ _ e he with h2 | h3
      · simp at h2
      · intro hmem
        unfold dedup_filter at h3
        have h4 := (List.mem_filter.mp h3).2
        simp at h4
        exact h4 hmem
    · have hcover : ∀ f ∈ candidates,
          f.name ∈ get_existing_source_files
            (runWorkflow w values0 candidates maxFiles true now1).values ∨
          FileFails w f := by
        intro f hf
        by_cases hin : f.name ∈ get_existing_source_files values0
        · left
          rw [h1]
          exact fold_existing_mono w _ now1 _ _ f.name (hmono0 f.name hin)
        · have hf1 : f ∈ dedup_filter candidates (get_existing_source_files values0) := by
            unfold dedup_filter
            exact List.mem_filter.mpr ⟨hf, by simpa using hin⟩
          have hcov := fold_covers w (reconcile_store values0).2 now1 hsfh
            (dedup_filter candidates (get_existing_source_files values0))
            ⟨(reconcile_store values0).1,
             ⟨candidates.length, 0, 0,
              candidates.length -
                (dedup_filter candidates (get_existing_source_files values0)).length, 0⟩,
             []⟩
            tail0 hshape f hf1 (Hnames f hf).1 (Hnames f hf).2
          rcases hcov with h4 | h5
          · exact Or.inr h4
          · left
            rw [h1]
            exact h5
      rw [runWorkflow_skip_eq, hcapfix]
      by_cases hE2 : (dedup_filter candidates
          (get_existing_source_files
            (runWorkflow w values0 candidates maxFiles true now1).values)).isEmpty = true
      · rw [if_pos hE2]
      · rw [if_neg hE2]
        have hall : ∀ f ∈ dedup_filter candidates
            (get_existing_source_files
              (runWorkflow w values0 candidates maxFiles true now1).values),
            FileFails w f := by
          intro f hfm
          unfold dedup_filter at hfm
          have hp := List.mem_filter.mp hfm
          rcases hcover f hp.1 with hmem | hfail
          · exact absurd hmem (by simpa using hp.2)
          · exact hfail
        have hres := fold_all_fail w
          (reconcile_store
            (runWorkflow w values0 candidates maxFiles true now1).values).2 now2
          (dedup_filter candidates
            (get_existing_source_files
              (runWorkflow w values0 candidates maxFiles true now1).values))
          ⟨(reconcile_store
             (runWorkflow w values0 candidates maxFiles true now1).values).1,
           ⟨candidates.length, 0, 0,
            candidates.length -
              (dedup_filter candidates
                (get_existing_source_files
                  (runWorkflow w values0 candidates maxFiles true now1).values)).length, 0⟩,
           []⟩
          hall
        rw [hres.2]

/-- Claim C1 witness: a single well-named candidate over an empty store,
run twice; the second run appends nothing. -/
theorem claim_C1_witness :
    (runWorkflow world1 (runWorkflow world1 [] [fileA] none true "t1").values
      [fileA] none true "t2").stats.rows_added = 0 :=
  (claim_C1_amended world1 [] [fileA] none "t1" "t2"
    (by decide) (fun m h => nomatch h) (by decide) (by decide)).2
